import Mathlib

/-!
Verification of the ao3d download orchestration engine against its design
specification.  The repository source tree provides the GUI layer
(`src/source/gui.py`); the orchestration engine, session and configuration
components it calls into are not present in the tree, so those parts are
modelled from the specification where the doc comments say so.
-/

namespace Ao3d

/-- WorkID: an opaque positive integer identifying a remote work. -/
abbrev WorkID := Nat

/-- Lifecycle states of a staged work (spec section 3, WorkRecord.status). -/
inductive WorkStatus
  | staged
  | metadataLoading
  | metadataLoaded
  | metadataFailed
  | contentDownloading
  | downloaded
  | downloadFailed
  deriving DecidableEq, Repr

/-- Structured metadata record for a work (spec section 3). -/
structure Metadata where
  title : String
  authors : List String
  nchapters : Nat
  expectedChapters : Option Nat
  words : Nat
  dateEdited : String
  deriving DecidableEq, Repr

/-- Error kinds returned by the Remote Client (spec section 6). -/
inductive RemoteErr
  | notFound
  | rateLimited
  | networkError
  deriving DecidableEq, Repr

/-- Result of a Remote Client call (spec section 6). -/
inductive RemoteResult (α : Type)
  | ok (value : α)
  | err (e : RemoteErr)
  deriving DecidableEq, Repr

/-- Modelled from the spec: the engine `Configuration` value object
(`configuration.py` is missing from the source tree); fields as read and
written by `GUI._save_settings` / `GUI._reset_settings` in `gui.py`. -/
structure Config where
  username : String
  password : String
  downloadsDir : String
  filetype : String
  shouldUseThreading : Bool
  concurrencyLimit : Int
  shouldRateLimit : Bool
  deriving DecidableEq, Repr

/-- A metadata-fetch task: the target WorkID paired with the Remote Client's
response for it. -/
abbrev MetaTask := WorkID × RemoteResult Metadata

/-- Terminal event of one task in a batch (spec section 4.4 contract). -/
inductive TerminalEvent
  | success (id : WorkID) (m : Metadata)
  | failure (id : WorkID) (e : RemoteErr)
  | globalAbort (e : RemoteErr)
  deriving DecidableEq, Repr

/-- The per-item terminal event of one dispatched task. -/
def taskEvent : MetaTask → TerminalEvent
  | (id, .ok m) => .success id m
  | (id, .err e) => .failure id e

/-- Modelled from the spec: the Concurrency Controller's `run_batch`
(`engine.py` is missing from the source tree).  Tasks are processed in
dispatch order; a rate-limited response is a global fatal condition: dispatch
stops and a single `globalAbort` is emitted, with no per-item events for the
remaining tasks (spec sections 4.4 and 7). -/
def run_batch : List MetaTask → List TerminalEvent
  | [] => []
  | (id, r) :: rest =>
    match r with
    | .err .rateLimited => [.globalAbort .rateLimited]
    | _ => taskEvent (id, r) :: run_batch rest

/-- The WorkIDs whose task was actually dispatched to the Remote Client
before the batch ended (the rate-limited task itself was dispatched). -/
def dispatchedIds : List MetaTask → List WorkID
  | [] => []
  | (id, r) :: rest =>
    match r with
    | .err .rateLimited => [id]
    | _ => id :: dispatchedIds rest

/-- The WorkID a terminal event reports on (`none` for a global abort). -/
def eventWorkId : TerminalEvent → Option WorkID
  | .success id _ => some id
  | .failure id _ => some id
  | .globalAbort _ => none

/-- Whether a terminal event is a global abort. -/
def isGlobalAbort : TerminalEvent → Bool
  | .globalAbort _ => true
  | _ => false

/-- Modelled from the spec: the dispatch orders the Concurrency Controller
may realise under a given configuration (spec sections 4.4 and 5): any
permutation of the submitted tasks when threading is on, exactly the
submission order when threading is off. -/
def ValidSchedule (cfg : Config) (tasks order : List MetaTask) : Prop :=
  order.Perm tasks ∧ (cfg.shouldUseThreading = false → order = tasks)

theorem eventWorkId_taskEvent (t : MetaTask) : eventWorkId (taskEvent t) = some t.1 := by
  obtain ⟨id, r⟩ := t
  cases r <;> rfl

theorem isGlobalAbort_taskEvent (t : MetaTask) : isGlobalAbort (taskEvent t) = false := by
  obtain ⟨id, r⟩ := t
  cases r <;> rfl

theorem run_batch_eq_map (tasks : List MetaTask)
    (h : ∀ t ∈ tasks, t.2 ≠ RemoteResult.err RemoteErr.rateLimited) :
    run_batch tasks = tasks.map taskEvent := by
  induction tasks with
  | nil => rfl
  | cons t rest ih =>
    obtain ⟨id, r⟩ := t
    have hhd : r ≠ RemoteResult.err RemoteErr.rateLimited := h (id, r) (List.mem_cons_self _ _)
    have htl : ∀ t ∈ rest, t.2 ≠ RemoteResult.err RemoteErr.rateLimited := fun t ht =>
      h t (List.mem_cons_of_mem _ ht)
    cases r with
    | ok m => simpa [run_batch, taskEvent] using ih htl
    | err e =>
      cases e with
      | rateLimited => exact absurd rfl hhd
      | notFound => simpa [run_batch, taskEvent] using ih htl
      | networkError => simpa [run_batch, taskEvent] using ih htl

theorem countP_eq_one_of_nodup (l : List Nat) (a : Nat) (hn : l.Nodup) (hm : a ∈ l) :
    l.countP (fun b => b == a) = 1 := by
  induction l with
  | nil => cases hm
  | cons x rest ih =>
    rw [List.countP_cons]
    rcases List.mem_cons.mp hm with rfl | hm'
    · have hrest : rest.countP (fun b => b == a) = 0 := by
        rw [List.countP_eq_zero]
        intro b hb
        have hne : b ≠ a := fun h => (List.nodup_cons.mp hn).1 (h ▸ hb)
        simp [hne]
      simp [hrest]
    · have hx : x ≠ a := by
        rintro rfl
        exact (List.nodup_cons.mp hn).1 hm'
      have hrec := ih (List.nodup_cons.mp hn).2 hm'
      simp [hrec, hx]

/-- C1: for every set S of WorkIDs passed to a single `load_works` call, the
engine invokes the caller-supplied `on_complete` callback exactly once per
distinct ID in S (never zero times, never twice), regardless of the
concurrency settings in effect.  Here S is given as the duplicate-free list
of task ids, the concurrency settings only constrain which dispatch orders
are possible, and the batch runs without a rate-limit response (a
rate-limited batch instead ends in the global abort of section 4.4). -/
theorem load_works_on_complete_exactly_once
    (cfg : Config) (tasks order : List MetaTask)
    (hsched : ValidSchedule cfg tasks order)
    (hnorl : ∀ t ∈ tasks, t.2 ≠ RemoteResult.err RemoteErr.rateLimited)
    (hnodup : (tasks.map Prod.fst).Nodup) :
    ∀ id ∈ tasks.map Prod.fst,
      (run_batch order).countP (fun e => eventWorkId e == some id) = 1 := by
  intro id hid
  obtain ⟨hperm, -⟩ := hsched
  have hnorlO : ∀ t ∈ order, t.2 ≠ RemoteResult.err RemoteErr.rateLimited := fun t ht =>
    hnorl t (hperm.mem_iff.mp ht)
  rw [run_batch_eq_map order hnorlO, List.countP_map]
  have hcong : List.countP ((fun e => eventWorkId e == some id) ∘ taskEvent) order
      = List.countP (fun t : MetaTask => t.1 == id) order := by
    apply List.countP_congr
    intro t ht
    simp [Function.comp, eventWorkId_taskEvent t]
  rw [hcong]
  have hmap : List.countP (fun t : MetaTask => t.1 == id) order
      = List.countP (fun a => a == id) (order.map Prod.fst) := by
    rw [List.countP_map]
    rfl
  rw [hmap, (hperm.map Prod.fst).countP_eq]
  exact countP_eq_one_of_nodup _ id hnodup hid

/-- A concrete metadata value used by the closed witnesses below. -/
def mMeta : Metadata :=
  { title := "t", authors := ["a"], nchapters := 1, expectedChapters := none,
    words := 100, dateEdited := "today" }

/-- A concrete configuration used by the closed witnesses below. -/
def cfgSeq : Config :=
  { username := "", password := "", downloadsDir := "downloads", filetype := "EPUB",
    shouldUseThreading := false, concurrencyLimit := 2, shouldRateLimit := true }

theorem load_works_on_complete_exactly_once_witness :
    (run_batch [(1, RemoteResult.ok mMeta), (2, RemoteResult.ok mMeta)]).countP
      (fun e => eventWorkId e == some 1) = 1 :=
  load_works_on_complete_exactly_once cfgSeq
    [(1, RemoteResult.ok mMeta), (2, RemoteResult.ok mMeta)]
    [(1, RemoteResult.ok mMeta), (2, RemoteResult.ok mMeta)]
    ⟨List.Perm.refl _, fun _ => rfl⟩ (by decide) (by decide) 1 (by decide)

theorem run_batch_append_rateLimited (pre post : List MetaTask) (i : WorkID)
    (hpre : ∀ t ∈ pre, t.2 ≠ RemoteResult.err RemoteErr.rateLimited) :
    run_batch (pre ++ (i, RemoteResult.err RemoteErr.rateLimited) :: post)
      = pre.map taskEvent ++ [TerminalEvent.globalAbort RemoteErr.rateLimited] := by
  induction pre with
  | nil => rfl
  | cons t rest ih =>
    obtain ⟨id, r⟩ := t
    have hhd := hpre (id, r) (List.mem_cons_self _ _)
    have htl : ∀ t ∈ rest, t.2 ≠ RemoteResult.err RemoteErr.rateLimited := fun t ht =>
      hpre t (List.mem_cons_of_mem _ ht)
    cases r with
    | ok m => simpa [run_batch, taskEvent] using ih htl
    | err e =>
      cases e with
      | rateLimited => exact absurd rfl hhd
      | notFound => simpa [run_batch, taskEvent] using ih htl
      | networkError => simpa [run_batch, taskEvent] using ih htl

theorem dispatchedIds_append_rateLimited (pre post : List MetaTask) (i : WorkID)
    (hpre : ∀ t ∈ pre, t.2 ≠ RemoteResult.err RemoteErr.rateLimited) :
    dispatchedIds (pre ++ (i, RemoteResult.err RemoteErr.rateLimited) :: post)
      = pre.map Prod.fst ++ [i] := by
  induction pre with
  | nil => rfl
  | cons t rest ih =>
    obtain ⟨id, r⟩ := t
    have hhd := hpre (id, r) (List.mem_cons_self _ _)
    have htl : ∀ t ∈ rest, t.2 ≠ RemoteResult.err RemoteErr.rateLimited := fun t ht =>
      hpre t (List.mem_cons_of_mem _ ht)
    cases r with
    | ok m => simpa [dispatchedIds] using ih htl
    | err e =>
      cases e with
      | rateLimited => exact absurd rfl hhd
      | notFound => simpa [dispatchedIds] using ih htl
      | networkError => simpa [dispatchedIds] using ih htl

/-- C5: when the Remote Client returns a rate-limit response for a task in a
batch, the batch aborts globally: the already-dispatched prefix is still
reported per item, dispatch stops at the rate-limited task, exactly one
global rate-limit failure is surfaced, and the undispatched remainder
receives no per-item event at all. -/
theorem rate_limit_global_abort
    (pre post : List MetaTask) (i : WorkID)
    (hpre : ∀ t ∈ pre, t.2 ≠ RemoteResult.err RemoteErr.rateLimited) :
    run_batch (pre ++ (i, RemoteResult.err RemoteErr.rateLimited) :: post)
        = pre.map taskEvent ++ [TerminalEvent.globalAbort RemoteErr.rateLimited]
      ∧ dispatchedIds (pre ++ (i, RemoteResult.err RemoteErr.rateLimited) :: post)
        = pre.map Prod.fst ++ [i]
      ∧ (run_batch (pre ++ (i, RemoteResult.err RemoteErr.rateLimited) :: post)).countP
          isGlobalAbort = 1
      ∧ ∀ id : WorkID, id ∉ pre.map Prod.fst →
          (run_batch (pre ++ (i, RemoteResult.err RemoteErr.rateLimited) :: post)).countP
            (fun e => eventWorkId e == some id) = 0 := by
  have h1 := run_batch_append_rateLimited pre post i hpre
  have h2 := dispatchedIds_append_rateLimited pre post i hpre
  refine ⟨h1, h2, ?_, ?_⟩
  · rw [h1, List.countP_append]
    have hz : (pre.map taskEvent).countP isGlobalAbort = 0 := by
      rw [List.countP_eq_zero]
      intro e he
      obtain ⟨t, ht, rfl⟩ := List.mem_map.mp he
      simp [isGlobalAbort_taskEvent]
    simp [hz, isGlobalAbort]
  · intro id hid
    rw [h1, List.countP_append]
    have hA : (pre.map taskEvent).countP (fun e => eventWorkId e == some id) = 0 := by
      rw [List.countP_eq_zero]
      intro e he
      obtain ⟨t, ht, rfl⟩ := List.mem_map.mp he
      have hne : t.1 ≠ id := fun h => hid (List.mem_map.mpr ⟨t, ht, h⟩)
      simp [eventWorkId_taskEvent, hne]
    have hB : List.countP (fun e => eventWorkId e == some id)
        [TerminalEvent.globalAbort RemoteErr.rateLimited] = 0 := rfl
    rw [hA, hB]

/-- The five-task batch of the spec's rate-limit scenario: the third of five
staged IDs triggers a rate-limit response. -/
def batchRL : List MetaTask :=
  [(1, RemoteResult.ok mMeta), (2, RemoteResult.ok mMeta),
   (3, RemoteResult.err RemoteErr.rateLimited),
   (4, RemoteResult.ok mMeta), (5, RemoteResult.ok mMeta)]

theorem rate_limit_global_abort_witness :
    run_batch batchRL
        = [TerminalEvent.success 1 mMeta, TerminalEvent.success 2 mMeta,
           TerminalEvent.globalAbort RemoteErr.rateLimited]
      ∧ dispatchedIds batchRL = [1, 2, 3]
      ∧ (run_batch batchRL).countP isGlobalAbort = 1
      ∧ (run_batch batchRL).countP (fun e => eventWorkId e == some 4) = 0 := by
  have h := rate_limit_global_abort
    [(1, RemoteResult.ok mMeta), (2, RemoteResult.ok mMeta)]
    [(4, RemoteResult.ok mMeta), (5, RemoteResult.ok mMeta)] 3 (by decide)
  exact ⟨h.1, h.2.1, h.2.2.1, h.2.2.2 4 (by decide)⟩

/-- Success payload delivered to `on_complete`: metadata for a load task, a
destination path for a download task. -/
inductive Payload
  | meta (m : Metadata)
  | path (p : String)
  deriving DecidableEq, Repr

/-- One `on_complete(work_id, data_or_none, error_or_none)` invocation. -/
structure CallbackEvent where
  workId : WorkID
  payload : Option Payload
  errorMessage : Option String
  deriving DecidableEq, Repr

/-- A Work Registry record (spec section 3). -/
structure WorkRecord where
  status : WorkStatus
  metadata : Option Metadata
  destinationPath : Option String
  lastError : Option String
  deriving DecidableEq, Repr

/-- Human-readable message for a Remote Client error. -/
def errMessage : RemoteErr → String
  | .notFound => "not found"
  | .rateLimited => "rate limited"
  | .networkError => "network error"

/-- Modelled from the spec: the Orchestration Engine's observable state
(`engine.py` is missing from the source tree): the Work Registry, the set of
staged ids, the ids cancelled by `remove`, the queues of in-flight
metadata-fetch and content-download tasks, and the sequence of `on_complete`
invocations delivered so far. -/
structure EngineState where
  registry : WorkID → Option WorkRecord
  staged : Finset WorkID
  cancelled : Finset WorkID
  pendingMeta : List WorkID
  pendingContent : List WorkID
  emitted : List CallbackEvent

/-- The record a work holds right after staging (spec section 4.5: created
`Staged` and immediately transitioned to `MetadataLoading`). -/
def stagedRecord : WorkRecord :=
  { status := .metadataLoading, metadata := none, destinationPath := none, lastError := none }

/-- Modelled from the spec: stage one WorkID for `load_works` (spec section
4.5): create or overwrite its registry record in place, clear any pending
cancellation, and enqueue one metadata-fetch task unless one is already in
flight for that id (spec section 3 invariant: at most one in-flight
operation per WorkID). -/
def stageWork (s : EngineState) (id : WorkID) : EngineState :=
  { s with
    registry := Function.update s.registry id (some stagedRecord)
    staged := insert id s.staged
    cancelled := s.cancelled.erase id
    pendingMeta := if id ∈ s.pendingMeta then s.pendingMeta else s.pendingMeta ++ [id] }

/-- Modelled from the spec: the dispatch phase of `load_works` — stages every
submitted id and enqueues its task, emitting no completion callback. -/
def loadWorksDispatch (s : EngineState) (ids : List WorkID) : EngineState :=
  ids.foldl stageWork s

/-- Modelled from the spec: enqueue one content-download task for an id,
respecting the one-in-flight-operation-per-id invariant. -/
def queueDownload (s : EngineState) (id : WorkID) : EngineState :=
  { s with
    pendingContent :=
      if id ∈ s.pendingContent then s.pendingContent else s.pendingContent ++ [id] }

/-- Modelled from the spec: the dispatch phase of `download_works` — enqueues
every submitted id, emitting no completion callback. -/
def downloadWorksDispatch (s : EngineState) (ids : List WorkID) : EngineState :=
  ids.foldl queueDownload s

/-- Modelled from the spec: completion of the in-flight metadata task at
queue position `j`, with Remote Client response `r`.  A cancelled id's
result is discarded: no registry mutation and no `on_complete` (spec
section 4.5 `remove`); otherwise the record moves to `MetadataLoaded` or
`MetadataFailed` and exactly one callback is delivered. -/
def stepMeta (s : EngineState) (j : Nat) (r : RemoteResult Metadata) : EngineState :=
  match s.pendingMeta[j]? with
  | none => s
  | some id =>
    let s1 := { s with pendingMeta := s.pendingMeta.eraseIdx j }
    if id ∈ s.cancelled then s1
    else
      match r with
      | .ok m =>
        { s1 with
          registry := Function.update s1.registry id
            (some { status := .metadataLoaded, metadata := some m,
                    destinationPath := none, lastError := none })
          emitted := s1.emitted ++ [⟨id, some (.meta m), none⟩] }
      | .err e =>
        { s1 with
          registry := Function.update s1.registry id
            (some { status := .metadataFailed, metadata := none,
                    destinationPath := none, lastError := some (errMessage e) })
          emitted := s1.emitted ++ [⟨id, none, some (errMessage e)⟩] }

/-- A call the engine makes into the Remote Client. -/
inductive RemoteOp
  | fetchMeta (id : WorkID)
  | fetchContent (id : WorkID)
  deriving DecidableEq, Repr

/-- Outcome of one content-download task: the Remote Client calls it issued
in order, the resulting registry record, and the single callback event it
delivers. -/
structure DownloadStep where
  ops : List RemoteOp
  record : WorkRecord
  event : CallbackEvent
  deriving DecidableEq, Repr

/-- Modelled from the spec: one content-download task (spec section 4.5
`download_works`): if the work's metadata is already loaded only the content
is fetched; if it is missing the metadata is implicitly fetched first, and a
metadata failure is reported as the single combined failure without ever
starting the content fetch.  `mr` and `cr` are the Remote Client responses
to the metadata fetch and content fetch respectively. -/
def downloadItem (id : WorkID) (meta : Option Metadata) (mr : RemoteResult Metadata)
    (cr : RemoteResult String) : DownloadStep :=
  match meta with
  | some m =>
    match cr with
    | .ok p =>
      { ops := [.fetchContent id]
        record := { status := .downloaded, metadata := some m,
                    destinationPath := some p, lastError := none }
        event := ⟨id, some (.path p), none⟩ }
    | .err e =>
      { ops := [.fetchContent id]
        record := { status := .downloadFailed, metadata := some m,
                    destinationPath := none, lastError := some (errMessage e) }
        event := ⟨id, none, some (errMessage e)⟩ }
  | none =>
    match mr with
    | .err e =>
      { ops := [.fetchMeta id]
        record := { status := .metadataFailed, metadata := none,
                    destinationPath := none, lastError := some (errMessage e) }
        event := ⟨id, none, some (errMessage e)⟩ }
    | .ok m =>
      match cr with
      | .ok p =>
        { ops := [.fetchMeta id, .fetchContent id]
          record := { status := .downloaded, metadata := some m,
                      destinationPath := some p, lastError := none }
          event := ⟨id, some (.path p), none⟩ }
      | .err e =>
        { ops := [.fetchMeta id, .fetchContent id]
          record := { status := .downloadFailed, metadata := some m,
                      destinationPath := none, lastError := some (errMessage e) }
          event := ⟨id, none, some (errMessage e)⟩ }

/-- Modelled from the spec: completion of the in-flight content-download
task at queue position `j`.  Cancellation discards the result; otherwise the
task runs `downloadItem` against the registry's current metadata for the id,
updates the record and delivers exactly one callback. -/
def stepContent (s : EngineState) (j : Nat) (mr : RemoteResult Metadata)
    (cr : RemoteResult String) : EngineState :=
  match s.pendingContent[j]? with
  | none => s
  | some id =>
    let s1 := { s with pendingContent := s.pendingContent.eraseIdx j }
    if id ∈ s.cancelled then s1
    else
      let d := downloadItem id ((s.registry id).bind WorkRecord.metadata) mr cr
      { s1 with
        registry := Function.update s1.registry id (some d.record)
        emitted := s1.emitted ++ [d.event] }

/-- One scheduler step: some in-flight task finishes with its responses. -/
inductive EngineStep
  | meta (j : Nat) (r : RemoteResult Metadata)
  | content (j : Nat) (mr : RemoteResult Metadata) (cr : RemoteResult String)

/-- Apply one scheduler step to the engine state. -/
def applyStep (s : EngineState) : EngineStep → EngineState
  | .meta j r => stepMeta s j r
  | .content j mr cr => stepContent s j mr cr

/-- Run a sequence of scheduler steps. -/
def runSteps (s : EngineState) (steps : List EngineStep) : EngineState :=
  steps.foldl applyStep s

/-- Modelled from the spec: `remove(work_id)` (spec section 4.5): delete the
WorkRecord and mark the id cancelled so that any in-flight task discards its
result. -/
def removeWork (s : EngineState) (id : WorkID) : EngineState :=
  { s with
    registry := Function.update s.registry id none
    staged := s.staged.erase id
    cancelled := insert id s.cancelled }

theorem loadWorksDispatch_emitted (s : EngineState) (ids : List WorkID) :
    (loadWorksDispatch s ids).emitted = s.emitted := by
  induction ids generalizing s with
  | nil => rfl
  | cons id rest ih =>
    show (loadWorksDispatch (stageWork s id) rest).emitted = s.emitted
    rw [ih (stageWork s id)]
    rfl

theorem downloadWorksDispatch_emitted (s : EngineState) (ids : List WorkID) :
    (downloadWorksDispatch s ids).emitted = s.emitted := by
  induction ids generalizing s with
  | nil => rfl
  | cons id rest ih =>
    show (downloadWorksDispatch (queueDownload s id) rest).emitted = s.emitted
    rw [ih (queueDownload s id)]
    rfl

/-- The single `on_complete` event a metadata task delivers for its own id:
the metadata on success, the error message on failure (spec section 4.5). -/
def metaEvent (id : WorkID) : RemoteResult Metadata → CallbackEvent
  | .ok m => ⟨id, some (.meta m), none⟩
  | .err e => ⟨id, none, some (errMessage e)⟩

/-- C2: `load_works` and `download_works` return after dispatching the batch
without delivering any completion, and each item's completion — metadata or
content, success or failure — is delivered individually and incrementally by
the worker step that finishes that item's task, as exactly that item's one
callback — not all at once at batch end. -/
theorem dispatch_returns_results_incremental (s : EngineState) (ids : List WorkID) :
    (loadWorksDispatch s ids).emitted = s.emitted
      ∧ (downloadWorksDispatch s ids).emitted = s.emitted
      ∧ (∀ j id r, s.pendingMeta[j]? = some id → id ∉ s.cancelled →
          (stepMeta s j r).emitted = s.emitted ++ [metaEvent id r])
      ∧ (∀ j id mr cr, s.pendingContent[j]? = some id → id ∉ s.cancelled →
          (stepContent s j mr cr).emitted
            = s.emitted
              ++ [(downloadItem id ((s.registry id).bind WorkRecord.metadata)
                    mr cr).event]) := by
  refine ⟨loadWorksDispatch_emitted s ids, downloadWorksDispatch_emitted s ids, ?_, ?_⟩
  · intro j id r hj hc
    unfold stepMeta
    rw [hj]
    cases r <;> simp [hc, metaEvent]
  · intro j id mr cr hj hc
    unfold stepContent
    rw [hj]
    simp [hc]

/-- An engine state with one in-flight metadata task and one in-flight
content task, for the witnesses. -/
def s0 : EngineState :=
  { registry := fun _ => none, staged := ∅, cancelled := ∅,
    pendingMeta := [7], pendingContent := [9], emitted := [] }

theorem dispatch_returns_results_incremental_witness :
    (loadWorksDispatch s0 [1, 2]).emitted = s0.emitted
      ∧ (downloadWorksDispatch s0 [1, 2]).emitted = s0.emitted
      ∧ (stepMeta s0 0 (RemoteResult.err RemoteErr.notFound)).emitted
        = s0.emitted ++ [metaEvent 7 (RemoteResult.err RemoteErr.notFound)]
      ∧ (stepContent s0 0 (RemoteResult.ok mMeta) (RemoteResult.ok "out.epub")).emitted
        = s0.emitted
          ++ [(downloadItem 9 ((s0.registry 9).bind WorkRecord.metadata)
                (RemoteResult.ok mMeta) (RemoteResult.ok "out.epub")).event] := by
  have h := dispatch_returns_results_incremental s0 [1, 2]
  exact ⟨h.1, h.2.1,
    h.2.2.1 0 7 (RemoteResult.err RemoteErr.notFound) rfl (by simp [s0]),
    h.2.2.2 0 9 (RemoteResult.ok mMeta) (RemoteResult.ok "out.epub") rfl (by simp [s0])⟩

/-- C6: staging a WorkID a second time never creates a second registry
entry: the staged-id set (hence its size) is unchanged and the existing
record is overwritten in place. -/
theorem staging_idempotent_registry (s : EngineState) (id : WorkID) :
    (stageWork (stageWork s id) id).staged = (stageWork s id).staged
      ∧ (stageWork (stageWork s id) id).staged.card = (stageWork s id).staged.card
      ∧ (stageWork (stageWork s id) id).registry id = some stagedRecord := by
  refine ⟨?_, ?_, ?_⟩ <;> simp [stageWork, Function.update_same, Finset.insert_idem]

/-- C4: a content download never starts before metadata loading has
completed for that id: with metadata already loaded only the content fetch
is issued; with metadata missing the metadata fetch is always issued first
and the content fetch (if at all) strictly after it; the end-to-end
implicit-load path succeeds when the remote data exists; and a failure of
either step surfaces as the task's single combined failure. -/
theorem download_implicit_metadata_first (id : WorkID) (mr : RemoteResult Metadata)
    (cr : RemoteResult String) :
    ((downloadItem id none mr cr).ops = [RemoteOp.fetchMeta id]
        ∨ (downloadItem id none mr cr).ops = [RemoteOp.fetchMeta id, RemoteOp.fetchContent id])
      ∧ (∀ m, (downloadItem id (some m) mr cr).ops = [RemoteOp.fetchContent id])
      ∧ (∀ m p, mr = RemoteResult.ok m → cr = RemoteResult.ok p →
          (downloadItem id none mr cr).record.status = WorkStatus.downloaded
            ∧ (downloadItem id none mr cr).event = ⟨id, some (Payload.path p), none⟩)
      ∧ (((∃ e, mr = RemoteResult.err e) ∨ (∃ e, cr = RemoteResult.err e)) →
          (downloadItem id none mr cr).event.errorMessage.isSome = true) := by
  refine ⟨?_, ?_, ?_, ?_⟩
  · cases mr <;> cases cr <;> simp [downloadItem]
  · intro m
    cases cr <;> simp [downloadItem]
  · rintro m p rfl rfl
    simp [downloadItem]
  · rintro (⟨e, rfl⟩ | ⟨e, rfl⟩)
    · simp [downloadItem]
    · cases mr <;> simp [downloadItem]

theorem download_implicit_metadata_first_witness :
    (downloadItem 5 none (RemoteResult.ok mMeta)
        (RemoteResult.err RemoteErr.notFound)).event.errorMessage.isSome = true
      ∧ (downloadItem 5 none (RemoteResult.ok mMeta)
          (RemoteResult.ok "out.epub")).record.status = WorkStatus.downloaded := by
  have h := download_implicit_metadata_first 5 (RemoteResult.ok mMeta)
    (RemoteResult.err RemoteErr.notFound)
  have h2 := download_implicit_metadata_first 5 (RemoteResult.ok mMeta)
    (RemoteResult.ok "out.epub")
  exact ⟨h.2.2.2 (Or.inr ⟨RemoteErr.notFound, rfl⟩),
    (h2.2.2.1 mMeta "out.epub" rfl rfl).1⟩

theorem downloadItem_event_workId (id : WorkID) (meta : Option Metadata)
    (mr : RemoteResult Metadata) (cr : RemoteResult String) :
    (downloadItem id meta mr cr).event.workId = id := by
  cases meta <;> cases mr <;> cases cr <;> rfl

theorem stepMeta_cancelled_invariant (id : WorkID) (s : EngineState) (j : Nat)
    (r : RemoteResult Metadata) (hc : id ∈ s.cancelled) (hr : s.registry id = none) :
    id ∈ (stepMeta s j r).cancelled
      ∧ (stepMeta s j r).registry id = none
      ∧ (stepMeta s j r).emitted.filter (fun e => e.workId == id)
        = s.emitted.filter (fun e => e.workId == id) := by
  unfold stepMeta
  cases hj : s.pendingMeta[j]? with
  | none => exact ⟨hc, hr, rfl⟩
  | some pid =>
    by_cases hpc : pid ∈ s.cancelled
    · simp only [hpc, if_true]
      exact ⟨hc, hr, by trivial⟩
    · have hne : id ≠ pid := fun h => hpc (h ▸ hc)
      have hne2 : pid ≠ id := Ne.symm hne
      cases r with
      | ok m =>
        simp only [hpc, if_false]
        refine ⟨hc, ?_, ?_⟩
        · simpa [Function.update_noteq hne] using hr
        · simp [List.filter_append, hne2]
      | err e =>
        simp only [hpc, if_false]
        refine ⟨hc, ?_, ?_⟩
        · simpa [Function.update_noteq hne] using hr
        · simp [List.filter_append, hne2]

theorem stepContent_cancelled_invariant (id : WorkID) (s : EngineState) (j : Nat)
    (mr : RemoteResult Metadata) (cr : RemoteResult String)
    (hc : id ∈ s.cancelled) (hr : s.registry id = none) :
    id ∈ (stepContent s j mr cr).cancelled
      ∧ (stepContent s j mr cr).registry id = none
      ∧ (stepContent s j mr cr).emitted.filter (fun e => e.workId == id)
        = s.emitted.filter (fun e => e.workId == id) := by
  unfold stepContent
  cases hj : s.pendingContent[j]? with
  | none => exact ⟨hc, hr, rfl⟩
  | some pid =>
    by_cases hpc : pid ∈ s.cancelled
    · simp only [hpc, if_true]
      exact ⟨hc, hr, by trivial⟩
    · have hne : id ≠ pid := fun h => hpc (h ▸ hc)
      have hne2 : pid ≠ id := Ne.symm hne
      simp only [hpc, if_false]
      refine ⟨hc, ?_, ?_⟩
      · simpa [Function.update_noteq hne] using hr
      · simp [List.filter_append, downloadItem_event_workId, hne2]

theorem applyStep_cancelled_invariant (id : WorkID) (s : EngineState) (st : EngineStep)
    (hc : id ∈ s.cancelled) (hr : s.registry id = none) :
    id ∈ (applyStep s st).cancelled
      ∧ (applyStep s st).registry id = none
      ∧ (applyStep s st).emitted.filter (fun e => e.workId == id)
        = s.emitted.filter (fun e => e.workId == id) := by
  cases st with
  | meta j r => exact stepMeta_cancelled_invariant id s j r hc hr
  | content j mr cr => exact stepContent_cancelled_invariant id s j mr cr hc hr

theorem runSteps_cancelled_invariant (id : WorkID) (s : EngineState)
    (steps : List EngineStep) (hc : id ∈ s.cancelled) (hr : s.registry id = none) :
    id ∈ (runSteps s steps).cancelled
      ∧ (runSteps s steps).registry id = none
      ∧ (runSteps s steps).emitted.filter (fun e => e.workId == id)
        = s.emitted.filter (fun e => e.workId == id) := by
  induction steps generalizing s with
  | nil => exact ⟨hc, hr, rfl⟩
  | cons st rest ih =>
    have h1 := applyStep_cancelled_invariant id s st hc hr
    have h2 := ih (applyStep s st) h1.1 h1.2.1
    exact ⟨h2.1, h2.2.1, h2.2.2.trans h1.2.2⟩

/-- C3: after `remove(work_id)` runs with a task still in flight for that
id, no matter how the in-flight tasks later complete, no `on_complete` for
that id is ever delivered afterwards and no registry entry for it survives:
the in-flight result is discarded and never mutates the registry. -/
theorem remove_suppresses_in_flight (s : EngineState) (id : WorkID)
    (steps : List EngineStep) :
    (runSteps (removeWork s id) steps).registry id = none
      ∧ (runSteps (removeWork s id) steps).emitted.filter (fun e => e.workId == id)
        = s.emitted.filter (fun e => e.workId == id) := by
  have h := runSteps_cancelled_invariant id (removeWork s id) steps
    (by simp [removeWork]) (by simp [removeWork, Function.update_same])
  exact ⟨h.2.1, h.2.2⟩

/-- Clamp a requested concurrency limit into the valid range.  The bounds
come from the `concurrency_limit_input` widget in `GUI._make_settings_tab`
(`gui.py`): an integer input with `min_value=1`, `max_value=20`,
`min_clamped=True`, `max_clamped=True`. -/
def clampConcurrencyLimit (x : Int) : Int := max 1 (min 20 x)

/-- Modelled from the spec: the configuration update operation
(`Engine.update_settings`, missing from the source tree), which validates
`concurrency_limit` by clamping it to the interval of the GUI widget, and
stores the remaining fields as supplied by `GUI._save_settings`. -/
def update_settings (c : Config) (username password downloadsDir filetype : String)
    (shouldUseThreading : Bool) (concurrencyLimit : Int) (shouldRateLimit : Bool) :
    Config :=
  { c with
    username := username
    password := password
    downloadsDir := downloadsDir
    filetype := filetype
    shouldUseThreading := shouldUseThreading
    concurrencyLimit := clampConcurrencyLimit concurrencyLimit
    shouldRateLimit := shouldRateLimit }

/-- C7: for every integer supplied as `concurrency_limit`, the configuration
update clamps it into [1, 20], so the effective stored limit always lies
between 1 and 20 inclusive. -/
theorem concurrency_limit_clamped (c : Config)
    (username password downloadsDir filetype : String)
    (shouldUseThreading : Bool) (concurrencyLimit : Int) (shouldRateLimit : Bool) :
    1 ≤ (update_settings c username password downloadsDir filetype shouldUseThreading
          concurrencyLimit shouldRateLimit).concurrencyLimit
      ∧ (update_settings c username password downloadsDir filetype shouldUseThreading
          concurrencyLimit shouldRateLimit).concurrencyLimit ≤ 20 := by
  constructor
  · exact le_max_left 1 (min 20 concurrencyLimit)
  · exact max_le (by norm_num) (min_le_left 20 concurrencyLimit)

/-- Modelled from the spec: the Work Resolver's URL → WorkID extraction rule
(section 6: a fixed, known path pattern for the remote service's work
pages; `engine.py` is missing from the source tree).  The id is the digit
run following a `/works/` path segment; a work id must be a positive
integer; anything else is dropped. -/
def afterWorksSegment : List Char → Option (List Char)
  | '/' :: 'w' :: 'o' :: 'r' :: 'k' :: 's' :: '/' :: rest => some rest
  | _ :: rest => afterWorksSegment rest
  | [] => none

/-- Decimal value of a digit run. -/
def charsToNat (cs : List Char) : Nat :=
  cs.foldl (fun acc c => 10 * acc + (c.toNat - 48)) 0

/-- Extract a WorkID from one URL, or `none` for a malformed or
non-matching URL. -/
def extractWorkId (url : String) : Option WorkID :=
  match afterWorksSegment url.data with
  | none => none
  | some rest =>
    let ds := rest.takeWhile Char.isDigit
    if ds.isEmpty then none
    else if charsToNat ds = 0 then none
    else some (charsToNat ds)

/-- Modelled from the spec: `resolve_urls` (section 4.3): resolve a batch of
URLs to the set of WorkIDs they denote, silently dropping malformed or
non-matching URLs and collapsing duplicates. -/
def resolve_urls (urls : List String) : Finset WorkID :=
  (urls.filterMap extractWorkId).toFinset

theorem resolve_urls_cons (u : String) (l : List String) :
    resolve_urls (u :: l)
      = match extractWorkId u with
        | none => resolve_urls l
        | some a => insert a (resolve_urls l) := by
  unfold resolve_urls
  rw [List.filterMap_cons]
  cases extractWorkId u <;> simp

/-- C8: `resolve_urls` is idempotent over its input: a duplicated URL, or
two distinct URLs resolving to the same WorkID, contribute one id, so the
result set (and its size) is the same as resolving once; malformed or
non-matching URLs are silently dropped from the result set. -/
theorem resolve_urls_idempotent (l : List String) (u v m : String) :
    resolve_urls (u :: u :: l) = resolve_urls (u :: l)
      ∧ (resolve_urls (u :: u :: l)).card = (resolve_urls (u :: l)).card
      ∧ (extractWorkId u = extractWorkId v →
          resolve_urls (u :: v :: l) = resolve_urls (v :: l))
      ∧ (extractWorkId m = none → resolve_urls (m :: l) = resolve_urls l) := by
  have hdup : resolve_urls (u :: u :: l) = resolve_urls (u :: l) := by
    rw [resolve_urls_cons u (u :: l), resolve_urls_cons u l]
    cases extractWorkId u <;> simp
  refine ⟨hdup, by rw [hdup], ?_, ?_⟩
  · intro huv
    rw [resolve_urls_cons u (v :: l), resolve_urls_cons v l, huv]
    cases extractWorkId v <;> simp
  · intro hm
    rw [resolve_urls_cons m l, hm]

theorem resolve_urls_idempotent_witness :
    resolve_urls ["https://archiveofourown.org/works/123",
        "https://archiveofourown.org/works/123"]
      = resolve_urls ["https://archiveofourown.org/works/123"]
      ∧ resolve_urls ["not a work url"] = resolve_urls [] := by
  have h := resolve_urls_idempotent [] "https://archiveofourown.org/works/123"
    "https://archiveofourown.org/works/123" "not a work url"
  exact ⟨h.1, h.2.2.2 (by decide)⟩

/-- Session state (spec section 3): identity for the remote service. -/
structure SessionState where
  username : String
  isAuthed : Bool
  deriving DecidableEq, Repr

/-- Authentication failure reasons (spec sections 4.1 and 7). -/
inductive AuthError
  | badCredentials
  | networkError
  | rateLimited
  deriving DecidableEq, Repr

/-- Result of the Remote Client's authentication exchange. -/
inductive AuthOutcome
  | ok (identity : String)
  | err (e : AuthError)
  deriving DecidableEq, Repr

/-- Modelled from the spec: `login` (section 4.1; `engine.py` is missing
from the source tree): on a successful authentication exchange both session
fields are set; on any failure the session is returned exactly as it was. -/
def login (s : SessionState) (username : String) (outcome : AuthOutcome) :
    SessionState × Option AuthError :=
  match outcome with
  | .ok _ => ({ username := username, isAuthed := true }, none)
  | .err e => (s, some e)

/-- C9: when `login` fails for any reason (bad credentials, network failure,
rate limit), the session state is left exactly as before the call; on
success both fields are set together — never a torn update. -/
theorem login_atomic (s : SessionState) (username identity : String) (e : AuthError) :
    (login s username (AuthOutcome.err e)).1 = s
      ∧ (login s username (AuthOutcome.ok identity)).1
        = { username := username, isAuthed := true } := by
  exact ⟨rfl, rfl⟩

/-- A call the GUI makes into the engine (`gui.py`). -/
inductive EngineCall
  | removeCall (id : Nat)
  | loadWorksCall (ids : List Nat)
  | downloadWorksCall (ids : List Nat)
  deriving DecidableEq, Repr

/-- The GUI's id-tracking state (`gui.py`): the staged ids `_work_ids` and
the completed downloads `_downloaded`. -/
structure GUIState where
  workIds : Finset Nat
  downloaded : Finset Nat
  deriving DecidableEq

/-- `GUI._remove_work_item` (`gui.py` lines 193-207): tell the engine to
remove the work, then drop the id from `_work_ids` and `_downloaded` if
present.  The returned list records the calls made into the engine. -/
def removeWorkItem (s : GUIState) (workId : Nat) : GUIState × List EngineCall :=
  let calls := [EngineCall.removeCall workId]
  let workIds := if workId ∈ s.workIds then s.workIds.erase workId else s.workIds
  let downloaded :=
    if workId ∈ s.downloaded then s.downloaded.erase workId else s.downloaded
  (⟨workIds, downloaded⟩, calls)

/-- C10: after `GUI._remove_work_item` runs for a work id, the id is in
neither `_work_ids` nor `_downloaded`, and `engine.remove` has been invoked
exactly once — also when the id was never tracked to begin with. -/
theorem remove_work_item_clears (s : GUIState) (id : Nat) :
    id ∉ (removeWorkItem s id).1.workIds
      ∧ id ∉ (removeWorkItem s id).1.downloaded
      ∧ (removeWorkItem s id).2.count (EngineCall.removeCall id) = 1 := by
  refine ⟨?_, ?_, ?_⟩
  · by_cases h : id ∈ s.workIds <;> simp [removeWorkItem, h]
  · by_cases h : id ∈ s.downloaded <;> simp [removeWorkItem, h]
  · simp [removeWorkItem]

end Ao3d
